import Mathlib

/-!
Shallow embedding of the document-classification core of the
`pipefy-crewai-analysis-v2` repository:

* `src/services/faq_knowledge_service.py` — name normalization,
  checklist repository (load/caching), and `validate_documents`
  (the LLM-backed matcher);
* `src/services/classification_service.py` — per-document analysis,
  classification precedence, issue partitioning, automatic actions,
  confidence score.

Python strings are modelled as Lean `String`/`List Char`; machine floats
carry only the values 0, 0.5 and 1 here, so `ℚ` models them exactly.
External collaborators (the LLM, the ingestion backend, the filesystem
clock and loaders) are passed in as explicit parameters.
-/

namespace PipefyV2

/-! ### Python string primitives (restricted to the ASCII fragment that the
normalizer's output lives in). -/

/-- Python `str.isspace` on the ASCII range (space, TAB, LF, VT, FF, CR and
the FS/GS/RS/US separators). -/
def pyIsSpace (c : Char) : Bool :=
  c = ' ' || c = '\t' || c = '\n' || c = '\r' ||
  c = Char.ofNat 11 || c = Char.ofNat 12 ||
  c = Char.ofNat 28 || c = Char.ofNat 29 || c = Char.ofNat 30 || c = Char.ofNat 31

/-- Python `str.isalnum` on the ASCII range (codes of `a`-`z`, `A`-`Z`,
`0`-`9`). -/
def pyIsAlnum (c : Char) : Bool :=
  (97 ≤ c.toNat && c.toNat ≤ 122) || (65 ≤ c.toNat && c.toNat ≤ 90) ||
  (48 ≤ c.toNat && c.toNat ≤ 57)

/-- Python `str.lower` on the ASCII range (shift `A`-`Z` by 32). -/
def pyLower (c : Char) : Char :=
  if 65 ≤ c.toNat && c.toNat ≤ 90 then Char.ofNat (c.toNat + 32) else c

/-- Models the composite `unicodedata.normalize('NFKD', ...)` followed by
`.encode('ASCII','ignore')` at the level of one character: ASCII characters
survive unchanged, accented Latin
characters decompose and keep their ASCII base letter (the combining mark is
dropped by the ASCII encode), every other non-ASCII character is dropped.
The table lists the accented characters that occur in the repository's
checklist labels. -/
def nfkdAscii (c : Char) : List Char :=
  if c.toNat < 128 then [c]
  else if c = 'á' || c = 'à' || c = 'â' || c = 'ã' || c = 'ä' then ['a']
  else if c = 'Á' || c = 'À' || c = 'Â' || c = 'Ã' || c = 'Ä' then ['A']
  else if c = 'é' || c = 'è' || c = 'ê' || c = 'ë' then ['e']
  else if c = 'É' || c = 'È' || c = 'Ê' || c = 'Ë' then ['E']
  else if c = 'í' || c = 'ì' || c = 'î' || c = 'ï' then ['i']
  else if c = 'Í' || c = 'Ì' || c = 'Î' || c = 'Ï' then ['I']
  else if c = 'ó' || c = 'ò' || c = 'ô' || c = 'õ' || c = 'ö' then ['o']
  else if c = 'Ó' || c = 'Ò' || c = 'Ô' || c = 'Õ' || c = 'Ö' then ['O']
  else if c = 'ú' || c = 'ù' || c = 'û' || c = 'ü' then ['u']
  else if c = 'Ú' || c = 'Ù' || c = 'Û' || c = 'Ü' then ['U']
  else if c = 'ç' then ['c']
  else if c = 'Ç' then ['C']
  else if c = 'ñ' then ['n']
  else if c = 'Ñ' then ['N']
  else []

/-- The separator characters that `_normalize_name` replaces by a space. -/
def sepToSpace (c : Char) : Char :=
  if c = '-' || c = '_' || c = '.' || c = '/' then ' ' else c

/-- The character filter of `_normalize_name`: keep alphanumerics and
whitespace. -/
def keepAlnumSpace (c : Char) : Bool :=
  pyIsAlnum c || pyIsSpace c

/-- Python `str.split()` (split on whitespace runs, discarding empties). -/
def splitWs : List Char → List (List Char)
  | [] => []
  | [c] => if pyIsSpace c then [] else [[c]]
  | c :: r :: rest =>
    if pyIsSpace c then splitWs (r :: rest)
    else if pyIsSpace r then [c] :: splitWs (r :: rest)
    else
      match splitWs (r :: rest) with
      | [] => [[c]]
      | w :: ws => (c :: w) :: ws

/-- Python `' '.join(words)`. -/
def joinSpace : List (List Char) → List Char
  | [] => []
  | [w] => w
  | w :: w' :: ws => w ++ ' ' :: joinSpace (w' :: ws)

/-- `_normalize_name` from `faq_knowledge_service.py`, at the `List Char`
level: NFKD + ASCII-ignore, lower-case, map `-`/`_`/`.`/`/` to spaces, keep
only alphanumerics and whitespace, then collapse whitespace via
`' '.join(name.split())`. -/
def normalizeNameList (l : List Char) : List Char :=
  joinSpace (splitWs
    ((((l.flatMap nfkdAscii).map pyLower).map sepToSpace).filter keepAlnumSpace))

/-- `_normalize_name` on `String`s. -/
def normalize_name (s : String) : String :=
  ⟨normalizeNameList s.toList⟩

/-! ### classification_service.py — data model -/

/-- The `ClassificationType` enum. -/
inductive ClassificationType
  | APROVADO
  | PENDENCIA_BLOQUEANTE
  | PENDENCIA_NAO_BLOQUEANTE
deriving DecidableEq, Repr

/-- The `.value` of each enum member. -/
def ClassificationType.value : ClassificationType → String
  | .APROVADO => "Aprovado"
  | .PENDENCIA_BLOQUEANTE => "Pendencia_Bloqueante"
  | .PENDENCIA_NAO_BLOQUEANTE => "Pendencia_NaoBloqueante"

/-- One entry of `documents_data` (a Python dict): `parsed_content`, an
optional `expiry_date` string, and the remaining free-form string fields
(`fields.lookup f = none` models a missing key; an empty string models a
falsy value). The default value models the empty dict `{}` that
`documents_data.get(doc_type, {})` produces. -/
structure DocData where
  parsed_content : String := ""
  expiry_date : Option String := none
  fields : List (String × String) := []
deriving DecidableEq, Repr

/-- One rule of `self._rules["documents"]`. The field defaults are exactly
the `.get(key, default)` defaults used throughout the service, so a Python
rule dict with missing keys is modelled by this structure with the
corresponding default fields; the all-default value also models
`self._rules["documents"].get(doc_type, {})` for an unknown `doc_type`. -/
structure DocRule where
  required : Bool := true
  blocking_if_invalid : Bool := true
  validate_expiry : Bool := false
  auto_generable : Bool := false
  required_fields : List String := []
deriving DecidableEq, Repr

/-- Python-dict lookup with the `.get(doc_type, {})` default. -/
def getRule (rules : List (String × DocRule)) (doc_type : String) : DocRule :=
  (rules.lookup doc_type).getD {}

/-- The `DocumentAnalysis` dataclass (`metadata` carries `doc_data`). -/
structure DocumentAnalysis where
  document_type : String
  is_valid : Bool
  is_present : Bool
  issues : List String
  confidence_score : ℚ
  metadata : DocData
deriving DecidableEq, Repr

/-- Outcome of the `httpx.post` call to the ingestion backend inside
`classify_documents`: `success body` models `response.json()`,
`failure err` models the caught exception dict
`{"success": False, "error": str(e)}`. -/
inductive EnrichResult
  | success (body : String)
  | failure (error : String)
deriving DecidableEq, Repr

/-- One entry of the `auto_actions` list (a Python dict tagged by its
`"type"` key). The enrichment `GENERATE_DOCUMENT` dict optionally carries an
`enrich_result` key. -/
inductive AutoAction
  | MOVE_CARD (phase_id : String) (reason : String)
  | GENERATE_DOCUMENT (document_type : String) (reason : String)
      (enrich_result : Option EnrichResult)
  | NOTIFY_WHATSAPP (recipient : String) (message : String)
deriving DecidableEq, Repr

/-- The `"type"` key of an action dict. -/
def AutoAction.type : AutoAction → String
  | .MOVE_CARD _ _ => "MOVE_CARD"
  | .GENERATE_DOCUMENT _ _ _ => "GENERATE_DOCUMENT"
  | .NOTIFY_WHATSAPP _ _ => "NOTIFY_WHATSAPP"

/-- Python `action.get('reason', '')` (a `NOTIFY_WHATSAPP` dict has no
`reason` key). -/
def AutoAction.reason : AutoAction → String
  | .MOVE_CARD _ r => r
  | .GENERATE_DOCUMENT _ r _ => r
  | .NOTIFY_WHATSAPP _ _ => ""

/-- The `self._rules["actions"]` dict: only its `phase_mapping` sub-dict is
read (`action_rules.get("phase_mapping", {})`). -/
structure ActionRules where
  phase_mapping : List (String × String) := []
deriving DecidableEq, Repr

/-- The `ClassificationResult` dataclass. -/
structure ClassificationResult where
  classification_type : ClassificationType
  document_analyses : List DocumentAnalysis
  blocking_issues : List String
  non_blocking_issues : List String
  confidence_score : ℚ
  auto_actions : List AutoAction
  summary : String

/-! ### classification_service.py — operations -/

/-- Python truthiness of `parsed_content and parsed_content.strip()`: the
string holds at least one non-whitespace character. -/
def presentContent (pc : String) : Bool :=
  pc.toList.any (fun c => !(pyIsSpace c))

/-- One step of the `required_fields` loop of `_analyze_document`: the field
is missing or falsy, mark invalid and append the issue. -/
def checkField (doc_type : String) (doc_data : DocData)
    (acc : Bool × List String) (field : String) : Bool × List String :=
  if (match doc_data.fields.lookup field with
      | some v => v != ""
      | none => false) then acc
  else (false, acc.2 ++ ["Campo requerido '" ++ field ++ "' faltante en " ++ doc_type])

/-- The first validity step of `_analyze_document`: a document with no
parsed content that the rule requires (`required` defaults to `True`) is
invalid with the specific issue string; otherwise the analysis starts out
valid with no issues. -/
def analyzeInit (doc_rules : DocRule) (doc_type : String) (is_present : Bool) :
    Bool × List String :=
  if !is_present && doc_rules.required then
    (false, ["Documento " ++ doc_type ++
      " es requerido pero no tiene contenido parseado ('parsed_content')"])
  else (true, [])

/-- The expiry-validation step of `_analyze_document` (only reached for
present documents): when the document declares an `expiry_date` and the rule
has `validate_expiry`, a parse failure or a past date marks it invalid with
the corresponding issue. -/
def analyzeExpiry (doc_rules : DocRule) (parseDate : String → Option Int) (now : Int)
    (doc_type : String) (doc_data : DocData) (st0 : Bool × List String) :
    Bool × List String :=
  match doc_data.expiry_date with
  | some d =>
    if doc_rules.validate_expiry then
      match parseDate d with
      | some t =>
        if t < now then (false, st0.2 ++ ["Documento " ++ doc_type ++ " está expirado"])
        else st0
      | none =>
        (false, st0.2 ++ ["Documento " ++ doc_type ++
          " tiene formato de fecha inválido: " ++ d])
    else st0
  | none => st0

/-- The `(is_valid, issues)` outcome of `_analyze_document`: the initial
presence check, then — for present documents only — expiry validation
followed by the `required_fields` loop. -/
def analyzeState (rules : List (String × DocRule)) (parseDate : String → Option Int)
    (now : Int) (doc_type : String) (doc_data : DocData) : Bool × List String :=
  if presentContent doc_data.parsed_content then
    (getRule rules doc_type).required_fields.foldl (checkField doc_type doc_data)
      (analyzeExpiry (getRule rules doc_type) parseDate now doc_type doc_data
        (analyzeInit (getRule rules doc_type) doc_type
          (presentContent doc_data.parsed_content)))
  else analyzeInit (getRule rules doc_type) doc_type (presentContent doc_data.parsed_content)

/-- `_analyze_document`. External date handling is injected:
`parseDate d = none` models a `ValueError` from `datetime.fromisoformat`,
`some t` a successful parse to a timestamp, and `now` models
`datetime.now()`. Confidence is `1.0` when present and valid, `0.5`
otherwise. -/
def analyze_document (rules : List (String × DocRule))
    (parseDate : String → Option Int) (now : Int)
    (doc_type : String) (doc_data : DocData) : DocumentAnalysis :=
  { document_type := doc_type
    is_valid := (analyzeState rules parseDate now doc_type doc_data).1
    is_present := presentContent doc_data.parsed_content
    issues := (analyzeState rules parseDate now doc_type doc_data).2
    confidence_score :=
      if (analyzeState rules parseDate now doc_type doc_data).1 &&
          presentContent doc_data.parsed_content then 1 else 1/2
    metadata := doc_data }

/-- `_determine_classification`. -/
def determine_classification (rules : List (String × DocRule))
    (analyses : List DocumentAnalysis) : ClassificationType :=
  if analyses.any fun analysis =>
      !analysis.is_valid && (getRule rules analysis.document_type).blocking_if_invalid
  then .PENDENCIA_BLOQUEANTE
  else if analyses.any fun analysis =>
      !analysis.is_valid && !(getRule rules analysis.document_type).blocking_if_invalid
  then .PENDENCIA_NAO_BLOQUEANTE
  else .APROVADO

/-- `_identify_issues`: partition each analysis's issues by the rule's
`blocking_if_invalid` flag, preserving order. -/
def identify_issues (rules : List (String × DocRule))
    (analyses : List DocumentAnalysis) : List String × List String :=
  analyses.foldl
    (fun acc analysis =>
      let doc_rules := getRule rules analysis.document_type
      analysis.issues.foldl
        (fun acc2 issue =>
          if doc_rules.blocking_if_invalid then (acc2.1 ++ [issue], acc2.2)
          else (acc2.1, acc2.2 ++ [issue]))
        acc)
    ([], [])

/-- `_determine_auto_actions`, written as the source writes it: an `actions`
accumulator that receives the `MOVE_CARD` action, then one
`GENERATE_DOCUMENT` per qualifying analysis, then the `NOTIFY_WHATSAPP`
action. Python's `if phase_id:` is truthy: `None` and `""` both fail it. -/
def determine_auto_actions (rulesD : List (String × DocRule)) (rulesA : ActionRules)
    (classification : ClassificationType) (analyses : List DocumentAnalysis)
    (blocking_issues : List String) (_non_blocking_issues : List String) :
    List AutoAction :=
  let actions : List AutoAction := []
  let actions :=
    match rulesA.phase_mapping.lookup classification.value with
    | some phase_id =>
      if phase_id ≠ "" then
        actions ++ [.MOVE_CARD phase_id ("Clasificación: " ++ classification.value)]
      else actions
    | none => actions
  let actions := analyses.foldl
    (fun acc analysis =>
      let doc_rules := getRule rulesD analysis.document_type
      if doc_rules.auto_generable && (!analysis.is_present || !analysis.is_valid) then
        acc ++ [.GENERATE_DOCUMENT analysis.document_type
          "Documento auto-generable requerido" none]
      else acc)
    actions
  let actions :=
    if !blocking_issues.isEmpty then
      actions ++ [.NOTIFY_WHATSAPP "gestor_comercial" "Pendencias bloqueantes identificadas"]
    else actions
  actions

/-- `_calculate_confidence_score`: arithmetic mean, `0.0` for an empty
list. -/
def calculate_confidence_score (analyses : List DocumentAnalysis) : ℚ :=
  if analyses.isEmpty then 0
  else (analyses.map (·.confidence_score)).sum / analyses.length

/-- The per-analysis lines of `_generate_summary`. -/
def summaryDocLines (analysis : DocumentAnalysis) : List String :=
  ["- " ++ (if analysis.is_valid then "✅" else "❌") ++ " " ++ analysis.document_type] ++
  analysis.issues.map (fun issue => "  - " ++ issue)

/-- `_generate_summary`. -/
def generate_summary (classification : ClassificationType)
    (analyses : List DocumentAnalysis)
    (blocking_issues non_blocking_issues : List String)
    (auto_actions : List AutoAction) : String :=
  let summary := ["# Resumen de Clasificación\n",
    "## Status: " ++ classification.value ++ "\n",
    "\n## Documentos Analizados:\n"]
  let summary := summary ++ analyses.flatMap summaryDocLines
  let summary := summary ++
    (if !blocking_issues.isEmpty then
      ["\n## Pendencias Bloqueantes:"] ++ blocking_issues.map (fun issue => "- 🚫 " ++ issue)
     else [])
  let summary := summary ++
    (if !non_blocking_issues.isEmpty then
      ["\n## Pendencias No Bloqueantes:"] ++
        non_blocking_issues.map (fun issue => "- ⚠️ " ++ issue)
     else [])
  let summary := summary ++
    (if !auto_actions.isEmpty then
      ["\n## Acciones Automáticas:"] ++
        auto_actions.map (fun action => "- 🔄 " ++ action.type ++ ": " ++ action.reason)
     else [])
  String.intercalate "\n" summary

/-- Python `''.join(filter(str.isdigit, str(cnpj_raw)))` (ASCII digits). -/
def digitsOf (s : String) : String :=
  ⟨s.toList.filter (fun c => '0' ≤ c && c ≤ '9')⟩

/-- The `auto_actions_log` block of `classify_documents`: when the
`cartao_cnpj` analysis exists and is absent, attempt the enrichment call;
`enrichBackend` is the outcome of the `httpx.post` to the ingestion backend
(only consulted on the 14-digit path, where its exception is caught and
recorded in the action's `enrich_result`). -/
def enrichLog (document_analyses : List DocumentAnalysis) (cnpj_raw : String)
    (enrichBackend : EnrichResult) : List AutoAction :=
  match document_analyses.find? (fun a => a.document_type = "cartao_cnpj") with
  | some a =>
    if !a.is_present then
      let cnpj_clean := digitsOf cnpj_raw
      if cnpj_clean.length = 14 then
        [.GENERATE_DOCUMENT "cartao_cnpj"
          "Falta Cartão CNPJ - generado automáticamente" (some enrichBackend)]
      else
        [.GENERATE_DOCUMENT "cartao_cnpj"
          "Falta Cartão CNPJ - CNPJ no válido o ausente, no se pudo generar automáticamente"
          none]
    else []
  | none => []

/-- `classify_documents`. `rulesD`/`rulesA` are the loaded
`self._rules["documents"]`/`self._rules["actions"]` (both `{}` when rule
loading failed, since `extract_rules` returns `{}` on every failure path);
`documents_data` maps tags to document dicts; `cnpj_raw` is
`card_data.get("cnpj", "")`. `auto_actions.extend(auto_actions_log)` runs
only when the log is non-empty, which equals unconditional appending. -/
def classify_documents (rulesD : List (String × DocRule)) (rulesA : ActionRules)
    (parseDate : String → Option Int) (now : Int) (enrichBackend : EnrichResult)
    (documents_data : List (String × DocData)) (cnpj_raw : String) :
    ClassificationResult :=
  let required_docs := rulesD.map (·.1)
  let document_analyses := required_docs.map fun doc_type =>
    analyze_document rulesD parseDate now doc_type
      ((documents_data.lookup doc_type).getD {})
  let auto_actions_log := enrichLog document_analyses cnpj_raw enrichBackend
  let classification_type := determine_classification rulesD document_analyses
  let issues := identify_issues rulesD document_analyses
  let blocking_issues := issues.1
  let non_blocking_issues := issues.2
  let auto_actions := determine_auto_actions rulesD rulesA classification_type
    document_analyses blocking_issues non_blocking_issues
  let auto_actions := auto_actions ++ auto_actions_log
  let confidence_score := calculate_confidence_score document_analyses
  let summary := generate_summary classification_type document_analyses
    blocking_issues non_blocking_issues auto_actions
  { classification_type := classification_type
    document_analyses := document_analyses
    blocking_issues := blocking_issues
    non_blocking_issues := non_blocking_issues
    confidence_score := confidence_score
    auto_actions := auto_actions
    summary := summary }

/-- The `MOVE_CARD` prefix of `_determine_auto_actions`: emitted exactly when
`phase_mapping` holds a truthy (non-empty) phase id for the classification. -/
def move_actions (rulesA : ActionRules) (classification : ClassificationType) :
    List AutoAction :=
  match rulesA.phase_mapping.lookup classification.value with
  | some phase_id =>
    if phase_id ≠ "" then
      [.MOVE_CARD phase_id ("Clasificación: " ++ classification.value)]
    else []
  | none => []

/-- The `GENERATE_DOCUMENT` middle segment of `_determine_auto_actions`: one
action per analysis whose rule is `auto_generable` and which is absent or
invalid, in analysis order. -/
def generate_actions (rulesD : List (String × DocRule))
    (analyses : List DocumentAnalysis) : List AutoAction :=
  (analyses.filter fun analysis =>
    (getRule rulesD analysis.document_type).auto_generable &&
      (!analysis.is_present || !analysis.is_valid)).map
    fun analysis =>
      .GENERATE_DOCUMENT analysis.document_type "Documento auto-generable requerido" none

/-- The `NOTIFY_WHATSAPP` suffix of `_determine_auto_actions`: emitted exactly
when blocking issues exist. -/
def notify_actions (blocking_issues : List String) : List AutoAction :=
  if !blocking_issues.isEmpty then
    [.NOTIFY_WHATSAPP "gestor_comercial" "Pendencias bloqueantes identificadas"]
  else []

/-- The fixed action order the specification claims: an optional leading
`MOVE_CARD`, then `GENERATE_DOCUMENT` actions, then an optional trailing
`NOTIFY_WHATSAPP`, and nothing else in any other position. -/
def actionOrderOK (l : List AutoAction) : Bool :=
  let l1 := match l with
    | [] => ([] : List AutoAction)
    | a :: rest => if a.type = "MOVE_CARD" then rest else a :: rest
  let l2 := l1.dropWhile (fun a => a.type == "GENERATE_DOCUMENT")
  match l2 with
  | [] => true
  | [a] => a.type == "NOTIFY_WHATSAPP"
  | _ => false

/-! ### faq_knowledge_service.py — validate_documents -/

/-- One checklist entry of `faq_checklist.json`, keyed in the source by the
literal strings `"Item do Checklist"`, `"Classificação da Pendência (se
houver)"` and `"Ação Automática do Sistema"`. -/
structure Regla where
  item : String
  classificacao : String
  acao : String
deriving DecidableEq, Repr

/-- One entry of the `documentos` argument (`d.get("name", "")` and
`d.get("parsed_content", "")` defaults are the field defaults). -/
structure DocumentoAnexo where
  name : String := ""
  parsed_content : String := ""
deriving DecidableEq, Repr

/-- Python `str.strip("* ")`: drop leading and trailing `*` and spaces. -/
def stripStarSpace (s : String) : String :=
  ⟨((s.toList.dropWhile (fun c => c = '*' || c = ' ')).reverse.dropWhile
      (fun c => c = '*' || c = ' ')).reverse⟩

/-- Python substring test `needle in hay`. -/
def pyInStr (needle hay : String) : Bool :=
  decide (needle.toList <:+: hay.toList)

/-- Python `str.lower` (modelled on the ASCII range; the non-ASCII letters in
the repository's literals are already lower-case). -/
def lowerStr (s : String) : String :=
  ⟨s.toList.map pyLower⟩

/-- The matching test of the `validate_documents` scan:
`doc_name in respuesta or doc_name.lower() in respuesta.lower()`. -/
def containsCI (doc_name respuesta : String) : Bool :=
  pyInStr doc_name respuesta || pyInStr (lowerStr doc_name) (lowerStr respuesta)

/-- The `for i, d in enumerate(documentos)` scan with `break`: index of the
first submission whose name passes `containsCI` against the LLM response. -/
def doc_match (documentos : List DocumentoAnexo) (respuesta : String) : Option Nat :=
  match documentos with
  | [] => none
  | d :: rest =>
    if containsCI d.name respuesta then some 0
    else (doc_match rest respuesta).map (· + 1)

/-- One value of the `detalles` dict. -/
structure Detalle where
  status : String
  regla : Regla
  validacion : Option String := none
  razonamiento : Option String := none
  doc_name : Option String := none
  error : Option String := none
deriving DecidableEq, Repr

/-- One entry of the `acciones_automaticas` list (the dict with keys `type`,
`document_type`, `reason`, `accion`). -/
structure AccionAutomatica where
  type : String
  document_type : String
  reason : String
  accion : String
deriving DecidableEq, Repr

/-- Python dict assignment `m[k] = v`: overwrite in place when the key
exists, append otherwise (insertion order preserved). -/
def dictInsert (m : List (String × Detalle)) (k : String) (v : Detalle) :
    List (String × Detalle) :=
  if m.any (fun p => p.1 = k) then m.map (fun p => if p.1 = k then (k, v) else p)
  else m ++ [(k, v)]

/-- The detalles entry one checklist rule produces, as a function of the
outcome of that rule's LLM call: `Except.error e` models a raised exception
(timeout, transport error, ...) caught by the per-rule `except`. -/
def ruleDetalle (documentos : List DocumentoAnexo) (regla : Regla)
    (resp : Except String String) : Detalle :=
  match resp with
  | .ok respuesta =>
    match doc_match documentos respuesta with
    | some i =>
      { status := "Presente", regla := regla, validacion := some "IA",
        razonamiento := some respuesta,
        doc_name := some (documentos.getD i {}).name }
    | none =>
      { status := "Faltante", regla := regla, validacion := some "IA",
        razonamiento := some respuesta }
  | .error e =>
    { status := "Faltante", regla := regla, error := some e }

/-- The loop state of `validate_documents` (`logs`, `detalles`,
`status_geral`, `acciones_automaticas`), with the initial values the
function starts from. -/
structure VState where
  logs : List String := []
  detalles : List (String × Detalle) := []
  status_geral : String := "Aprovado"
  acciones : List AccionAutomatica := []
deriving DecidableEq, Repr

/-- One iteration of the `for regla in checklist` loop of
`validate_documents`, given the outcome `resp` of this rule's LLM call. -/
def validateStep (documentos : List DocumentoAnexo) (regla : Regla)
    (resp : Except String String) (st : VState) : VState :=
  let nombre := stripStarSpace regla.item
  match resp with
  | .ok respuesta =>
    match doc_match documentos respuesta with
    | some i =>
      { st with
        detalles := dictInsert st.detalles nombre (ruleDetalle documentos regla resp)
        logs := st.logs ++ ["✅ Documento presente (IA): " ++ nombre ++ " → " ++
          (documentos.getD i {}).name] }
    | none =>
      let st1 :=
        { st with
          detalles := dictInsert st.detalles nombre (ruleDetalle documentos regla resp)
          logs := st.logs ++ ["❌ Falta documento: " ++ nombre] }
      let st2 :=
        { st1 with
          status_geral :=
            if pyInStr "Bloqueante" regla.classificacao then "Pendencia_Bloqueante"
            else if st1.status_geral != "Pendencia_Bloqueante" then "Pendencia_NaoBloqueante"
            else st1.status_geral }
      if pyInStr "Cartão CNPJ" nombre || pyInStr "cartão cnpj" (lowerStr nombre) then
        { st2 with
          acciones := st2.acciones ++
            [{ type := "GENERATE_DOCUMENT", document_type := nombre,
               reason := "Falta Cartão CNPJ - se generará automáticamente",
               accion := regla.acao }] }
      else st2
  | .error _ =>
    { st with
      detalles := dictInsert st.detalles nombre (ruleDetalle documentos regla resp)
      logs := st.logs ++ ["❌ Falta documento: " ++ nombre ++ " (error IA)"] }

/-- The `for` loop of `validate_documents`. The external LLM is modelled by
`oracle : Nat → Except String String`, the outcome of the per-rule call in
checklist order (the prompt built from the rule name, the document names and
the 500-character excerpts is consumed only by that external capability). -/
def validateLoop (documentos : List DocumentoAnexo)
    (oracle : Nat → Except String String) :
    List Regla → Nat → VState → VState
  | [], _, st => st
  | regla :: rest, i, st =>
    validateLoop documentos oracle rest (i + 1)
      (validateStep documentos regla (oracle i) st)

/-- The result dict of `validate_documents`. -/
structure ValidateResult where
  status : String
  logs : List String
  detalles : List (String × Detalle)
  acciones_automaticas : List AccionAutomatica
deriving DecidableEq, Repr

/-- `validate_documents`. `checklist` is the value `load_checklist()`
returned (`none` models `None`); Python's `if not checklist:` also treats an
empty list as unavailable. -/
def validate_documents (checklist : Option (List Regla))
    (documentos : List DocumentoAnexo)
    (oracle : Nat → Except String String) : ValidateResult :=
  match checklist with
  | none =>
    { status := "error", logs := ["Checklist no disponible"], detalles := [],
      acciones_automaticas := [] }
  | some [] =>
    { status := "error", logs := ["Checklist no disponible"], detalles := [],
      acciones_automaticas := [] }
  | some checklist =>
    let st := validateLoop documentos oracle checklist 0 {}
    { status := st.status_geral, logs := st.logs, detalles := st.detalles,
      acciones_automaticas := st.acciones }

/-- The per-rule record sequence of one `validate_documents` run: for the
rule at position `i` (absolute index `i0 + position`), the key
`stripStarSpace regla.item` and the `Detalle` built from that rule's own LLM
outcome. -/
def ruleRecords (documentos : List DocumentoAnexo)
    (oracle : Nat → Except String String) :
    Nat → List Regla → List (String × Detalle)
  | _, [] => []
  | i, regla :: rest =>
    (stripStarSpace regla.item, ruleDetalle documentos regla (oracle i)) ::
      ruleRecords documentos oracle (i + 1) rest

/-- One rule's LLM call either failed (any error is fine) or produced a
response that matches some submitted document. -/
def okOrMatched (documentos : List DocumentoAnexo) (resp : Except String String) : Prop :=
  ∀ respuesta, resp = .ok respuesta → (doc_match documentos respuesta).isSome = true

/-! ### faq_knowledge_service.py — repository caching -/

/-- The cache-relevant state of `FAQKnowledgeService`: the loaded
`PDFKnowledgeSource` (modelled as an abstract `String` handle), the last
successful load time, the located path of `FAQ.pdf`, and the per-section
rules cache (modelled by its section keys). -/
structure FAQState where
  knowledge_source : Option String := none
  last_load_time : Option Int := none
  faq_path : Option String := none
  rules_cache : List String := []
deriving DecidableEq, Repr

/-- `self._cache_duration = timedelta(minutes=30)`, in seconds. -/
def cache_duration : Int := 1800

/-- `_should_reload`: never loaded, cache expired, or backing file modified
since the last load (`mtimeOf p = none` models a non-existing path). -/
def should_reload (st : FAQState) (now : Int) (mtimeOf : String → Option Int) : Bool :=
  match st.knowledge_source, st.last_load_time with
  | some _, some t =>
    if now - t > cache_duration then true
    else
      match st.faq_path with
      | some p =>
        match mtimeOf p with
        | some m => decide (m > t)
        | none => false
      | none => false
  | _, _ => true

/-- `get_knowledge_source`, returning the served source and the new state.
External collaborators are injected: `findFaq` is the outcome of
`_find_faq_file`, `mtimeOf` the filesystem's mtime, and `loader` the outcome
of the `PDFKnowledgeSource` constructor (`Except.error` models a raised
exception, which the outer `except` turns into a `None` return with no field
assigned). -/
def get_knowledge_source (st : FAQState) (findFaq : Option String) (now : Int)
    (mtimeOf : String → Option Int) (loader : Except String String) :
    Option String × FAQState :=
  let found : Option String × FAQState :=
    match st.faq_path with
    | some p => (some p, st)
    | none =>
      match findFaq with
      | some p => (some p, { st with faq_path := some p })
      | none => (none, st)
  match found.1 with
  | none => (none, found.2)
  | some _ =>
    let st := found.2
    if should_reload st now mtimeOf then
      match loader with
      | .ok ks =>
        (some ks,
          { st with knowledge_source := some ks, last_load_time := some now,
                    rules_cache := [] })
      | .error _ => (none, st)
    else (st.knowledge_source, st)

/-- `load_checklist`, returning the served checklist and the new cached
value. `checklist` is `self._checklist`, `checklist_path` is
`self._checklist_path`, `pathExists` the filesystem check, and `readJson`
the outcome of opening and `json.load`-ing the file (`Except.error` models a
raised exception, caught and turned into a `None` return). -/
def load_checklist (checklist : Option (List Regla))
    (checklist_path : Option String) (pathExists : String → Bool)
    (readJson : Except String (List Regla)) :
    Option (List Regla) × Option (List Regla) :=
  match checklist with
  | some c => (some c, some c)
  | none =>
    match checklist_path with
    | none => (none, none)
    | some p =>
      if pathExists p then
        match readJson with
        | .ok c => (some c, some c)
        | .error _ => (none, none)
      else (none, none)

/-! ### Helper lemmas — character primitives -/

theorem toNat_ofNat_of_lt {n : Nat} (h : n < 55296) : (Char.ofNat n).toNat = n := by
  have hv : n.isValidChar := Or.inl h
  rw [Char.ofNat, dif_pos hv]
  simp [Char.ofNatAux, Char.toNat, UInt32.toNat]

theorem pyIsSpace_iff {c : Char} : pyIsSpace c = true ↔
    c = ' ' ∨ c = '\t' ∨ c = '\n' ∨ c = '\r' ∨ c = Char.ofNat 11 ∨ c = Char.ofNat 12 ∨
    c = Char.ofNat 28 ∨ c = Char.ofNat 29 ∨ c = Char.ofNat 30 ∨ c = Char.ofNat 31 := by
  simp only [pyIsSpace, Bool.or_eq_true, decide_eq_true_eq]
  tauto

theorem pyIsSpace_toNat_lt {c : Char} (h : pyIsSpace c = true) : c.toNat < 128 := by
  rcases pyIsSpace_iff.mp h with rfl | rfl | rfl | rfl | rfl | rfl | rfl | rfl | rfl | rfl <;>
    decide

theorem pyIsSpace_not_upper {c : Char} (h : pyIsSpace c = true) :
    ¬(65 ≤ c.toNat ∧ c.toNat ≤ 90) := by
  rcases pyIsSpace_iff.mp h with rfl | rfl | rfl | rfl | rfl | rfl | rfl | rfl | rfl | rfl <;>
    decide

theorem pyIsSpace_not_sep {c : Char} (h : pyIsSpace c = true) :
    c ≠ '-' ∧ c ≠ '_' ∧ c ≠ '.' ∧ c ≠ '/' := by
  rcases pyIsSpace_iff.mp h with rfl | rfl | rfl | rfl | rfl | rfl | rfl | rfl | rfl | rfl <;>
    decide

theorem pyIsAlnum_ranges {c : Char} (h : pyIsAlnum c = true) :
    (97 ≤ c.toNat ∧ c.toNat ≤ 122) ∨ (65 ≤ c.toNat ∧ c.toNat ≤ 90) ∨
    (48 ≤ c.toNat ∧ c.toNat ≤ 57) := by
  have := h
  simp only [pyIsAlnum, Bool.or_eq_true, Bool.and_eq_true, decide_eq_true_eq] at this
  tauto

theorem pyIsAlnum_toNat_lt {c : Char} (h : pyIsAlnum c = true) : c.toNat < 128 := by
  rcases pyIsAlnum_ranges h with ⟨_, h2⟩ | ⟨_, h2⟩ | ⟨_, h2⟩ <;> omega

theorem pyIsAlnum_ne_sep {c : Char} (h : pyIsAlnum c = true) :
    c ≠ '-' ∧ c ≠ '_' ∧ c ≠ '.' ∧ c ≠ '/' := by
  refine ⟨?_, ?_, ?_, ?_⟩ <;> rintro rfl <;> revert h <;> decide

theorem pyLower_not_upper (c : Char) :
    ¬(65 ≤ (pyLower c).toNat ∧ (pyLower c).toNat ≤ 90) := by
  unfold pyLower
  split
  next h =>
    obtain ⟨h1, h2⟩ := by simpa [Bool.and_eq_true, decide_eq_true_eq] using h
    rw [toNat_ofNat_of_lt (by omega)]
    omega
  next h =>
    intro hc
    exact h (by simp [Bool.and_eq_true, decide_eq_true_eq]; omega)

theorem pyLower_fixed {c : Char} (h : ¬(65 ≤ c.toNat ∧ c.toNat ≤ 90)) :
    pyLower c = c := by
  unfold pyLower
  rw [if_neg]
  simpa [Bool.and_eq_true, decide_eq_true_eq] using h

theorem sepToSpace_fixed {c : Char} (h : c ≠ '-' ∧ c ≠ '_' ∧ c ≠ '.' ∧ c ≠ '/') :
    sepToSpace c = c := by
  unfold sepToSpace
  rw [if_neg]
  simp only [Bool.or_eq_true, decide_eq_true_eq]
  tauto

theorem nfkdAscii_of_ascii {c : Char} (h : c.toNat < 128) : nfkdAscii c = [c] := by
  unfold nfkdAscii
  rw [if_pos h]

/-! ### Helper lemmas — list-stage identities -/

theorem flatMap_eq_self_of {l : List Char} {f : Char → List Char}
    (h : ∀ c ∈ l, f c = [c]) : l.flatMap f = l := by
  induction l with
  | nil => rfl
  | cons c t ih =>
    simp only [List.flatMap_cons, h c (List.mem_cons_self c t),
      ih fun x hx => h x (List.mem_cons_of_mem c hx), List.singleton_append]

theorem map_eq_self_of {l : List Char} {f : Char → Char}
    (h : ∀ c ∈ l, f c = c) : l.map f = l := by
  induction l with
  | nil => rfl
  | cons c t ih =>
    simp only [List.map_cons, h c (List.mem_cons_self c t),
      ih fun x hx => h x (List.mem_cons_of_mem c hx)]

theorem filter_eq_self_of {l : List Char} {p : Char → Bool}
    (h : ∀ c ∈ l, p c = true) : l.filter p = l := by
  induction l with
  | nil => rfl
  | cons c t ih =>
    simp only [List.filter_cons, h c (List.mem_cons_self c t), if_true,
      ih fun x hx => h x (List.mem_cons_of_mem c hx)]

/-! ### Helper lemmas — splitWs / joinSpace -/

theorem splitWs_spec : ∀ (l : List Char), ∀ w ∈ splitWs l,
    w ≠ [] ∧ ∀ c ∈ w, pyIsSpace c = false ∧ c ∈ l := by
  intro l
  induction l with
  | nil => intro w hw; simp [splitWs] at hw
  | cons c rest ih =>
    cases rest with
    | nil =>
      intro w hw
      rw [splitWs] at hw
      by_cases hc : pyIsSpace c = true
      · rw [if_pos hc] at hw; simp at hw
      · have hc' : pyIsSpace c = false := by simpa using hc
        rw [if_neg hc] at hw
        rw [List.mem_singleton.mp hw]
        refine ⟨List.cons_ne_nil _ _, fun x hx => ?_⟩
        rw [List.mem_singleton.mp hx]
        exact ⟨hc', List.mem_cons_self c []⟩
    | cons r rest' =>
      intro w hw
      rw [splitWs] at hw
      by_cases hc : pyIsSpace c = true
      · rw [if_pos hc] at hw
        obtain ⟨hne, hall⟩ := ih w hw
        exact ⟨hne, fun x hx => ⟨(hall x hx).1, List.mem_cons_of_mem c (hall x hx).2⟩⟩
      · have hc' : pyIsSpace c = false := by simpa using hc
        rw [if_neg hc] at hw
        by_cases hr : pyIsSpace r = true
        · rw [if_pos hr] at hw
          rcases List.mem_cons.mp hw with rfl | hw
          · refine ⟨List.cons_ne_nil _ _, fun x hx => ?_⟩
            rw [List.mem_singleton.mp hx]
            exact ⟨hc', List.mem_cons_self c _⟩
          · obtain ⟨hne, hall⟩ := ih w hw
            exact ⟨hne, fun x hx => ⟨(hall x hx).1, List.mem_cons_of_mem c (hall x hx).2⟩⟩
        · rw [if_neg hr] at hw
          cases hsp : splitWs (r :: rest') with
          | nil =>
            rw [hsp] at hw
            rw [List.mem_singleton.mp hw]
            refine ⟨List.cons_ne_nil _ _, fun x hx => ?_⟩
            rw [List.mem_singleton.mp hx]
            exact ⟨hc', List.mem_cons_self c _⟩
          | cons w0 ws =>
            rw [hsp] at hw
            rcases List.mem_cons.mp hw with rfl | hw
            · obtain ⟨_, hall0⟩ := ih w0 (by rw [hsp]; exact List.mem_cons_self w0 ws)
              refine ⟨List.cons_ne_nil _ _, fun x hx => ?_⟩
              rcases List.mem_cons.mp hx with rfl | hx
              · exact ⟨hc', List.mem_cons_self x _⟩
              · exact ⟨(hall0 x hx).1, List.mem_cons_of_mem c (hall0 x hx).2⟩
            · obtain ⟨hne, hall⟩ :=
                ih w (by rw [hsp]; exact List.mem_cons_of_mem w0 hw)
              exact ⟨hne, fun x hx => ⟨(hall x hx).1, List.mem_cons_of_mem c (hall x hx).2⟩⟩

theorem splitWs_all_nonspace : ∀ (w : List Char), w ≠ [] →
    (∀ c ∈ w, pyIsSpace c = false) → splitWs w = [w] := by
  intro w
  induction w with
  | nil => intro h _; exact absurd rfl h
  | cons c t ih =>
    intro _ hall
    have hc : pyIsSpace c = false := hall c (List.mem_cons_self c t)
    cases t with
    | nil => rw [splitWs, if_neg (by simp [hc])]
    | cons d t' =>
      have hd : pyIsSpace d = false :=
        hall d (List.mem_cons_of_mem c (List.mem_cons_self d t'))
      rw [splitWs, if_neg (by simp [hc]), if_neg (by simp [hd]),
        ih (List.cons_ne_nil _ _) (fun x hx => hall x (List.mem_cons_of_mem c hx))]

theorem splitWs_cons_space (t : List Char) : splitWs (' ' :: t) = splitWs t := by
  cases t with
  | nil => decide
  | cons x t' => rw [splitWs, if_pos (by decide)]

theorem splitWs_append_space : ∀ (w t : List Char), w ≠ [] →
    (∀ c ∈ w, pyIsSpace c = false) → splitWs (w ++ ' ' :: t) = w :: splitWs t := by
  intro w
  induction w with
  | nil => intro t h _; exact absurd rfl h
  | cons c w' ih =>
    intro t _ hall
    have hc : pyIsSpace c = false := hall c (List.mem_cons_self c w')
    cases w' with
    | nil =>
      rw [List.cons_append, List.nil_append, splitWs, if_neg (by simp [hc]),
        if_pos (by decide), splitWs_cons_space]
    | cons d w'' =>
      have hd : pyIsSpace d = false :=
        hall d (List.mem_cons_of_mem c (List.mem_cons_self d w''))
      have harr : (c :: d :: w'') ++ ' ' :: t = c :: d :: (w'' ++ ' ' :: t) := rfl
      rw [harr, splitWs, if_neg (by simp [hc]), if_neg (by simp [hd])]
      have hrec : splitWs (d :: (w'' ++ ' ' :: t)) = (d :: w'') :: splitWs t := by
        have := ih t (List.cons_ne_nil _ _)
          (fun x hx => hall x (List.mem_cons_of_mem c hx))
        rwa [List.cons_append] at this
      rw [hrec]

theorem splitWs_joinSpace : ∀ (ws : List (List Char)),
    (∀ w ∈ ws, w ≠ [] ∧ ∀ c ∈ w, pyIsSpace c = false) →
    splitWs (joinSpace ws) = ws := by
  intro ws
  induction ws with
  | nil => intro _; rfl
  | cons w ws' ih =>
    intro h
    cases ws' with
    | nil =>
      rw [joinSpace]
      exact splitWs_all_nonspace w (h w (List.mem_cons_self w [])).1
        (h w (List.mem_cons_self w [])).2
    | cons w' ws'' =>
      rw [joinSpace, splitWs_append_space w _ (h w (List.mem_cons_self w _)).1
        (h w (List.mem_cons_self w _)).2,
        ih (fun x hx => h x (List.mem_cons_of_mem w hx))]

theorem mem_joinSpace : ∀ (ws : List (List Char)) (c : Char), c ∈ joinSpace ws →
    c = ' ' ∨ ∃ w ∈ ws, c ∈ w := by
  intro ws
  induction ws with
  | nil => intro c hc; simp [joinSpace] at hc
  | cons w ws' ih =>
    intro c hc
    cases ws' with
    | nil => exact Or.inr ⟨w, List.mem_cons_self w [], by simpa [joinSpace] using hc⟩
    | cons w' ws'' =>
      rw [joinSpace] at hc
      rcases List.mem_append.mp hc with hc | hc
      · exact Or.inr ⟨w, List.mem_cons_self w _, hc⟩
      · rcases List.mem_cons.mp hc with hc | hc
        · exact Or.inl hc
        · rcases ih c hc with hc | ⟨w0, hw0, hcw0⟩
          · exact Or.inl hc
          · exact Or.inr ⟨w0, List.mem_cons_of_mem w hw0, hcw0⟩

/-! ### Normalization idempotence (list level) -/

theorem normalizeNameList_chars (l : List Char) :
    ∀ c ∈ normalizeNameList l,
      c = ' ' ∨ (pyIsAlnum c = true ∧ pyIsSpace c = false ∧
        ¬(65 ≤ c.toNat ∧ c.toNat ≤ 90)) := by
  intro c hc
  rw [normalizeNameList] at hc
  set l4 := ((((l.flatMap nfkdAscii).map pyLower).map sepToSpace).filter keepAlnumSpace)
    with hl4
  rcases mem_joinSpace _ c hc with hc | ⟨w, hw, hcw⟩
  · exact Or.inl hc
  · obtain ⟨_, hall⟩ := splitWs_spec l4 w hw
    obtain ⟨hcs, hcl4⟩ := hall c hcw
    obtain ⟨hcl3, hkeep⟩ := List.mem_filter.mp hcl4
    have halnum : pyIsAlnum c = true := by
      rw [keepAlnumSpace] at hkeep
      rcases (by simpa using hkeep : pyIsAlnum c = true ∨ pyIsSpace c = true) with h | h
      · exact h
      · rw [h] at hcs; exact absurd hcs (by simp)
    obtain ⟨b, hb, hbc⟩ := List.mem_map.mp hcl3
    obtain ⟨a, _, hab⟩ := List.mem_map.mp hb
    have hnu : ¬(65 ≤ c.toNat ∧ c.toNat ≤ 90) := by
      by_cases hsep : b = '-' ∨ b = '_' ∨ b = '.' ∨ b = '/'
      · have hsp : c = ' ' := by
          rw [← hbc]
          unfold sepToSpace
          rw [if_pos]
          simp only [Bool.or_eq_true, decide_eq_true_eq]
          tauto
        rw [hsp] at hcs
        exact absurd hcs (by decide)
      · push_neg at hsep
        have hfix : sepToSpace b = b :=
          sepToSpace_fixed ⟨hsep.1, hsep.2.1, hsep.2.2.1, hsep.2.2.2⟩
        rw [← hbc, hfix, ← hab]
        exact pyLower_not_upper a
    exact Or.inr ⟨halnum, hcs, hnu⟩

theorem normalizeNameList_idem (l : List Char) :
    normalizeNameList (normalizeNameList l) = normalizeNameList l := by
  have hchar := normalizeNameList_chars l
  conv_lhs => rw [normalizeNameList]
  rw [flatMap_eq_self_of (l := normalizeNameList l) (f := nfkdAscii) (fun c hc => by
    rcases hchar c hc with rfl | ⟨ha, _, _⟩
    · exact nfkdAscii_of_ascii (by decide)
    · exact nfkdAscii_of_ascii (pyIsAlnum_toNat_lt ha))]
  rw [map_eq_self_of (l := normalizeNameList l) (f := pyLower) (fun c hc => by
    rcases hchar c hc with rfl | ⟨_, _, hnu⟩
    · exact pyLower_fixed (by decide)
    · exact pyLower_fixed hnu)]
  rw [map_eq_self_of (l := normalizeNameList l) (f := sepToSpace) (fun c hc => by
    rcases hchar c hc with rfl | ⟨ha, _, _⟩
    · exact sepToSpace_fixed (by decide)
    · exact sepToSpace_fixed (pyIsAlnum_ne_sep ha))]
  rw [filter_eq_self_of (l := normalizeNameList l) (p := keepAlnumSpace) (fun c hc => by
    rcases hchar c hc with rfl | ⟨ha, _, _⟩
    · simp [keepAlnumSpace, pyIsSpace]
    · simp [keepAlnumSpace, ha])]
  show joinSpace (splitWs (normalizeNameList l)) = normalizeNameList l
  rw [show normalizeNameList l = joinSpace (splitWs
    ((((l.flatMap nfkdAscii).map pyLower).map sepToSpace).filter keepAlnumSpace))
    from rfl]
  rw [splitWs_joinSpace _ (fun w hw =>
    ⟨(splitWs_spec _ w hw).1, fun c hc => ((splitWs_spec _ w hw).2 c hc).1⟩)]

/-! ### Helper lemmas — classification service -/

theorem checkField_eq_or (dt : String) (dd : DocData) (acc : Bool × List String)
    (f : String) : checkField dt dd acc f = acc ∨ (checkField dt dd acc f).1 = false := by
  unfold checkField
  split
  · exact Or.inl rfl
  · exact Or.inr rfl

theorem foldl_checkField_eq {dt : String} {dd : DocData} :
    ∀ (fields : List String) (acc : Bool × List String),
    (fields.foldl (checkField dt dd) acc).1 = true →
    fields.foldl (checkField dt dd) acc = acc := by
  intro fields
  induction fields with
  | nil => intro acc _; rfl
  | cons f fs ih =>
    intro acc h
    rw [List.foldl_cons] at h ⊢
    have hstep := ih (checkField dt dd acc f) h
    rw [hstep] at h ⊢
    rcases checkField_eq_or dt dd acc f with he | he
    · exact he
    · rw [he] at h; exact absurd h (by simp)

theorem analyzeExpiry_cases (r : DocRule) (pd : String → Option Int) (now : Int)
    (dt : String) (dd : DocData) (st0 : Bool × List String) :
    analyzeExpiry r pd now dt dd st0 = st0 ∨ (analyzeExpiry r pd now dt dd st0).1 = false := by
  unfold analyzeExpiry
  cases hde : dd.expiry_date with
  | none => exact Or.inl rfl
  | some d =>
    dsimp only
    by_cases hv : r.validate_expiry = true
    · rw [if_pos hv]
      cases hpd : pd d with
      | none => exact Or.inr rfl
      | some t =>
        dsimp only
        by_cases ht : t < now
        · rw [if_pos ht]; exact Or.inr rfl
        · rw [if_neg ht]; exact Or.inl rfl
    · rw [if_neg hv]; exact Or.inl rfl

theorem analyzeState_valid (rules : List (String × DocRule))
    (pd : String → Option Int) (now : Int) (dt : String) (dd : DocData) :
    (analyzeState rules pd now dt dd).1 = true →
    analyzeState rules pd now dt dd = (true, []) := by
  intro h
  by_cases hp : presentContent dd.parsed_content = true
  · rw [analyzeState, if_pos hp] at h ⊢
    have he := foldl_checkField_eq _ _ h
    rw [he] at h ⊢
    rcases analyzeExpiry_cases (getRule rules dt) pd now dt dd _ with hx | hx
    · rw [hx] at h ⊢
      rw [hp] at h ⊢
      rfl
    · rw [hx] at h
      exact absurd h (by simp)
  · have hp' : presentContent dd.parsed_content = false := by simpa using hp
    rw [analyzeState, if_neg (by simp [hp'])] at h ⊢
    rw [hp'] at h ⊢
    by_cases hr : (getRule rules dt).required = true
    · rw [analyzeInit, if_pos (by simp [hr])] at h
      exact absurd h (by simp)
    · have hr' : (getRule rules dt).required = false := by simpa using hr
      rw [analyzeInit, if_neg (by simp [hr'])]

theorem analyze_valid_issues (rules : List (String × DocRule))
    (pd : String → Option Int) (now : Int) (dt : String) (dd : DocData) :
    (analyze_document rules pd now dt dd).is_valid = true →
    (analyze_document rules pd now dt dd).issues = [] := by
  intro h
  show (analyzeState rules pd now dt dd).2 = []
  rw [analyzeState_valid rules pd now dt dd h]

theorem analyze_confidence_cases (rules : List (String × DocRule))
    (pd : String → Option Int) (now : Int) (dt : String) (dd : DocData) :
    (analyze_document rules pd now dt dd).confidence_score = 1 ∨
    (analyze_document rules pd now dt dd).confidence_score = 1/2 := by
  show (if ((analyzeState rules pd now dt dd).1 &&
      presentContent dd.parsed_content) = true then (1 : ℚ) else 1/2) = 1 ∨
    (if ((analyzeState rules pd now dt dd).1 &&
      presentContent dd.parsed_content) = true then (1 : ℚ) else 1/2) = 1/2
  split
  · exact Or.inl rfl
  · exact Or.inr rfl

theorem identify_issues_step (rules : List (String × DocRule))
    (analyses : List DocumentAnalysis)
    (h : ∀ a ∈ analyses, a.issues = []) :
    ∀ acc, analyses.foldl
      (fun acc analysis =>
        let doc_rules := getRule rules analysis.document_type
        analysis.issues.foldl
          (fun acc2 issue =>
            if doc_rules.blocking_if_invalid then (acc2.1 ++ [issue], acc2.2)
            else (acc2.1, acc2.2 ++ [issue]))
          acc)
      acc = acc := by
  induction analyses with
  | nil => intro acc; rfl
  | cons a as ih =>
    intro acc
    rw [List.foldl_cons]
    have ha : a.issues = [] := h a (List.mem_cons_self a as)
    rw [ha]
    exact ih (fun x hx => h x (List.mem_cons_of_mem a hx)) acc

theorem identify_issues_nil (rules : List (String × DocRule))
    (analyses : List DocumentAnalysis) (h : ∀ a ∈ analyses, a.issues = []) :
    identify_issues rules analyses = ([], []) := by
  unfold identify_issues
  exact identify_issues_step rules analyses h ([], [])

theorem classificationType_cases (t : ClassificationType) :
    t = .APROVADO ∨ t = .PENDENCIA_BLOQUEANTE ∨ t = .PENDENCIA_NAO_BLOQUEANTE := by
  cases t
  · exact Or.inl rfl
  · exact Or.inr (Or.inl rfl)
  · exact Or.inr (Or.inr rfl)

theorem determine_blocking (rulesD : List (String × DocRule))
    (analyses : List DocumentAnalysis) (a : DocumentAnalysis)
    (ha : a ∈ analyses) (hv : a.is_valid = false)
    (hb : (getRule rulesD a.document_type).blocking_if_invalid = true) :
    determine_classification rulesD analyses = .PENDENCIA_BLOQUEANTE := by
  unfold determine_classification
  rw [if_pos (List.any_eq_true.mpr ⟨a, ha, by simp [hv, hb]⟩)]

/-! ### C1 -/

/-- C1 counterexample: a rule with `required = false` and (default)
`blocking_if_invalid = true`, with no document submitted. The produced
analysis is absent for a blocking rule, yet the classification is
`APROVADO`, not `PENDENCIA_BLOQUEANTE` — the claim's "invalid or absent"
trigger is false on the code, which keys on `is_valid` alone. -/
theorem C1_counterexample :
    (analyze_document [("doc1", ({ required := false } : DocRule))] (fun _ => none) 0
      "doc1" {}).is_present = false ∧
    (getRule [("doc1", ({ required := false } : DocRule))] "doc1").blocking_if_invalid
      = true ∧
    (classify_documents [("doc1", ({ required := false } : DocRule))] {} (fun _ => none) 0
      (.success "") [] "").classification_type = .APROVADO ∧
    ClassificationType.APROVADO ≠ ClassificationType.PENDENCIA_BLOQUEANTE := by
  exact ⟨rfl, rfl, rfl, by decide⟩

/-- C1 amended: whenever some produced `DocumentAnalysis` is invalid
(`is_valid = false`) for a rule whose `blocking_if_invalid` flag is true,
the resulting status is `PENDENCIA_BLOQUEANTE`, regardless of any number of
non-blocking violations (absence triggers this only through invalidity,
which absence implies only for required rules). -/
theorem C1_blocking_precedence (rulesD : List (String × DocRule)) (rulesA : ActionRules)
    (pd : String → Option Int) (now : Int) (e : EnrichResult)
    (docs : List (String × DocData)) (cnpj : String) (a : DocumentAnalysis)
    (ha : a ∈ (classify_documents rulesD rulesA pd now e docs cnpj).document_analyses)
    (hv : a.is_valid = false)
    (hb : (getRule rulesD a.document_type).blocking_if_invalid = true) :
    (classify_documents rulesD rulesA pd now e docs cnpj).classification_type
      = .PENDENCIA_BLOQUEANTE :=
  determine_blocking rulesD _ a ha hv hb

/-- C1 witness: a required blocking rule with no document yields
`PENDENCIA_BLOQUEANTE` through the amended theorem. -/
theorem C1_blocking_precedence_witness :
    (classify_documents [("doc1", ({} : DocRule))] {} (fun _ => none) 0
      (.success "") [] "").classification_type = .PENDENCIA_BLOQUEANTE :=
  C1_blocking_precedence [("doc1", ({} : DocRule))] {} (fun _ => none) 0
    (.success "") [] ""
    (analyze_document [("doc1", ({} : DocRule))] (fun _ => none) 0 "doc1" {})
    (List.mem_singleton.mpr rfl) rfl rfl

/-! ### C3 -/

/-- C3: when every produced analysis is present and valid, the status is
`APROVADO` and both issue lists are empty. -/
theorem C3_all_valid_approved (rulesD : List (String × DocRule)) (rulesA : ActionRules)
    (pd : String → Option Int) (now : Int) (e : EnrichResult)
    (docs : List (String × DocData)) (cnpj : String)
    (h : ∀ a ∈ (classify_documents rulesD rulesA pd now e docs cnpj).document_analyses,
      a.is_present = true ∧ a.is_valid = true) :
    (classify_documents rulesD rulesA pd now e docs cnpj).classification_type
      = .APROVADO ∧
    (classify_documents rulesD rulesA pd now e docs cnpj).blocking_issues = [] ∧
    (classify_documents rulesD rulesA pd now e docs cnpj).non_blocking_issues = [] := by
  have hissues : ∀ a ∈ (classify_documents rulesD rulesA pd now e docs cnpj).document_analyses,
      a.issues = [] := by
    intro a ha
    obtain ⟨dt, _, hdt⟩ := List.mem_map.mp ha
    rw [← hdt]
    exact analyze_valid_issues _ _ _ _ _ (hdt ▸ (h a ha).2)
  have hno1 : ¬(((classify_documents rulesD rulesA pd now e docs cnpj).document_analyses).any
      (fun analysis => !analysis.is_valid &&
        (getRule rulesD analysis.document_type).blocking_if_invalid) = true) := by
    intro hcon
    obtain ⟨a, ha, hpa⟩ := List.any_eq_true.mp hcon
    rw [(h a ha).2] at hpa
    exact absurd hpa (by simp)
  have hno2 : ¬(((classify_documents rulesD rulesA pd now e docs cnpj).document_analyses).any
      (fun analysis => !analysis.is_valid &&
        !(getRule rulesD analysis.document_type).blocking_if_invalid) = true) := by
    intro hcon
    obtain ⟨a, ha, hpa⟩ := List.any_eq_true.mp hcon
    rw [(h a ha).2] at hpa
    exact absurd hpa (by simp)
  refine ⟨?_, ?_, ?_⟩
  · show determine_classification rulesD
      (classify_documents rulesD rulesA pd now e docs cnpj).document_analyses = .APROVADO
    unfold determine_classification
    rw [if_neg hno1, if_neg hno2]
  · show (identify_issues rulesD
      (classify_documents rulesD rulesA pd now e docs cnpj).document_analyses).1 = []
    rw [identify_issues_nil _ _ hissues]
  · show (identify_issues rulesD
      (classify_documents rulesD rulesA pd now e docs cnpj).document_analyses).2 = []
    rw [identify_issues_nil _ _ hissues]

/-- C3 witness: one required rule with a parsed document; the run is
approved with empty issue lists. -/
theorem C3_all_valid_approved_witness :
    (classify_documents [("doc1", ({} : DocRule))] {} (fun _ => none) 0 (.success "")
      [("doc1", { parsed_content := "x" })] "").classification_type = .APROVADO ∧
    (classify_documents [("doc1", ({} : DocRule))] {} (fun _ => none) 0 (.success "")
      [("doc1", { parsed_content := "x" })] "").blocking_issues = [] ∧
    (classify_documents [("doc1", ({} : DocRule))] {} (fun _ => none) 0 (.success "")
      [("doc1", { parsed_content := "x" })] "").non_blocking_issues = [] :=
  C3_all_valid_approved [("doc1", ({} : DocRule))] {} (fun _ => none) 0 (.success "")
    [("doc1", { parsed_content := "x" })] ""
    (by
      intro a ha
      rw [List.mem_singleton.mp ha]
      exact ⟨rfl, rfl⟩)

/-! ### C4 -/

/-- C4: the aggregate confidence is the arithmetic mean of the per-rule
scores (`0` on an empty analysis list), and every per-rule and aggregate
confidence lies in `[0, 1]`, for any input whatsoever. -/
theorem C4_confidence_mean_bounded (rulesD : List (String × DocRule))
    (rulesA : ActionRules) (pd : String → Option Int) (now : Int) (e : EnrichResult)
    (docs : List (String × DocData)) (cnpj : String) :
    ((classify_documents rulesD rulesA pd now e docs cnpj).confidence_score =
      if (classify_documents rulesD rulesA pd now e docs cnpj).document_analyses.isEmpty
      then 0
      else ((classify_documents rulesD rulesA pd now e docs cnpj).document_analyses.map
          (fun a => a.confidence_score)).sum /
        (classify_documents rulesD rulesA pd now e docs cnpj).document_analyses.length) ∧
    (∀ a ∈ (classify_documents rulesD rulesA pd now e docs cnpj).document_analyses,
      0 ≤ a.confidence_score ∧ a.confidence_score ≤ 1) ∧
    0 ≤ (classify_documents rulesD rulesA pd now e docs cnpj).confidence_score ∧
    (classify_documents rulesD rulesA pd now e docs cnpj).confidence_score ≤ 1 := by
  have hper : ∀ a ∈ (classify_documents rulesD rulesA pd now e docs cnpj).document_analyses,
      0 ≤ a.confidence_score ∧ a.confidence_score ≤ 1 := by
    intro a ha
    obtain ⟨dt, _, hdt⟩ := List.mem_map.mp ha
    rcases hdt ▸ analyze_confidence_cases rulesD pd now dt
        ((docs.lookup dt).getD {}) with hc | hc <;> rw [hc] <;> norm_num
  refine ⟨rfl, hper, ?_⟩
  show 0 ≤ calculate_confidence_score
      ((classify_documents rulesD rulesA pd now e docs cnpj).document_analyses) ∧
    calculate_confidence_score
      ((classify_documents rulesD rulesA pd now e docs cnpj).document_analyses) ≤ 1
  set A := (classify_documents rulesD rulesA pd now e docs cnpj).document_analyses with hA
  unfold calculate_confidence_score
  cases hoe : A.isEmpty with
  | true => norm_num
  | false =>
    rw [if_neg (by simp)]
    have hne : A ≠ [] := by
      intro hAnil
      rw [hAnil] at hoe
      simp at hoe
    have hlen : 0 < (A.length : ℚ) := by
      have := List.length_pos.mpr hne
      exact_mod_cast this
    have hsum0 : 0 ≤ (A.map (fun a => a.confidence_score)).sum := by
      apply List.sum_nonneg
      intro x hx
      obtain ⟨a, ha, hax⟩ := List.mem_map.mp hx
      rw [← hax]
      exact (hper a ha).1
    have hsum1 : (A.map (fun a => a.confidence_score)).sum ≤ A.length := by
      have hle : (A.map (fun a => a.confidence_score)).sum ≤
          (A.map (fun a => a.confidence_score)).length • (1 : ℚ) := by
        apply List.sum_le_card_nsmul
        intro x hx
        obtain ⟨a, ha, hax⟩ := List.mem_map.mp hx
        rw [← hax]
        exact (hper a ha).2
      rw [List.length_map, nsmul_eq_mul, mul_one] at hle
      exact hle
    constructor
    · exact div_nonneg hsum0 (le_of_lt hlen)
    · rw [div_le_one hlen]
      exact hsum1

/-! ### C6 -/

theorem enrichLog_type_congr (analyses : List DocumentAnalysis) (cnpj : String)
    (e1 e2 : EnrichResult) :
    (enrichLog analyses cnpj e1).map AutoAction.type =
      (enrichLog analyses cnpj e2).map AutoAction.type := by
  unfold enrichLog
  cases hf : analyses.find? (fun a => a.document_type = "cartao_cnpj") with
  | none => rfl
  | some a =>
    dsimp only
    by_cases hp : a.is_present = true
    · simp [hp]
    · have hp' : a.is_present = false := by simpa using hp
      by_cases hd : (digitsOf cnpj).length = 14
      · simp [hp', hd, AutoAction.type]
      · simp [hp', hd]

/-- C6: a classification call is total on every input — it always returns a
`ClassificationResult` carrying one of the three statuses — and the one
external fallible call it makes (the enrichment backend) cannot change the
status, the analyses, the issue lists, the confidence, or the action types:
its failure is recorded only inside the enrichment action's payload. With an
unavailable checklist (`rulesD = []`, what `extract_rules` yields on every
load failure), the call still returns a result (empty analyses, confidence
`0`) instead of raising. -/
theorem C6_no_exception_to_caller (rulesD : List (String × DocRule))
    (rulesA : ActionRules) (pd : String → Option Int) (now : Int)
    (e1 e2 : EnrichResult) (docs : List (String × DocData)) (cnpj : String) :
    ((classify_documents rulesD rulesA pd now e1 docs cnpj).classification_type =
      (classify_documents rulesD rulesA pd now e2 docs cnpj).classification_type) ∧
    ((classify_documents rulesD rulesA pd now e1 docs cnpj).classification_type
        = .APROVADO ∨
      (classify_documents rulesD rulesA pd now e1 docs cnpj).classification_type
        = .PENDENCIA_BLOQUEANTE ∨
      (classify_documents rulesD rulesA pd now e1 docs cnpj).classification_type
        = .PENDENCIA_NAO_BLOQUEANTE) ∧
    ((classify_documents rulesD rulesA pd now e1 docs cnpj).document_analyses =
      (classify_documents rulesD rulesA pd now e2 docs cnpj).document_analyses) ∧
    ((classify_documents rulesD rulesA pd now e1 docs cnpj).blocking_issues =
      (classify_documents rulesD rulesA pd now e2 docs cnpj).blocking_issues) ∧
    ((classify_documents rulesD rulesA pd now e1 docs cnpj).non_blocking_issues =
      (classify_documents rulesD rulesA pd now e2 docs cnpj).non_blocking_issues) ∧
    ((classify_documents rulesD rulesA pd now e1 docs cnpj).confidence_score =
      (classify_documents rulesD rulesA pd now e2 docs cnpj).confidence_score) ∧
    ((classify_documents rulesD rulesA pd now e1 docs cnpj).auto_actions.map
        AutoAction.type =
      (classify_documents rulesD rulesA pd now e2 docs cnpj).auto_actions.map
        AutoAction.type) ∧
    ((classify_documents [] rulesA pd now e1 docs cnpj).classification_type
        = .APROVADO ∧
      (classify_documents [] rulesA pd now e1 docs cnpj).document_analyses = [] ∧
      (classify_documents [] rulesA pd now e1 docs cnpj).confidence_score = 0) := by
  refine ⟨rfl, classificationType_cases _, rfl, rfl, rfl, rfl, ?_, rfl, rfl, rfl⟩
  show ((classify_documents rulesD rulesA pd now e1 docs cnpj).auto_actions).map
      AutoAction.type = _
  simp only [classify_documents]
  rw [List.map_append, List.map_append, enrichLog_type_congr]

/-! ### C7 -/

theorem move_part_eq (rulesA : ActionRules) (cls : ClassificationType) :
    (match rulesA.phase_mapping.lookup cls.value with
      | some phase_id =>
        if phase_id ≠ "" then
          ([] : List AutoAction) ++
            [.MOVE_CARD phase_id ("Clasificación: " ++ cls.value)]
        else []
      | none => []) = move_actions rulesA cls := by
  unfold move_actions
  cases rulesA.phase_mapping.lookup cls.value with
  | none => rfl
  | some p =>
    dsimp only
    split
    · rfl
    · rfl

theorem foldl_gen_append (rulesD : List (String × DocRule)) :
    ∀ (analyses : List DocumentAnalysis) (init : List AutoAction),
    analyses.foldl
      (fun acc analysis =>
        let doc_rules := getRule rulesD analysis.document_type
        if doc_rules.auto_generable && (!analysis.is_present || !analysis.is_valid) then
          acc ++ [.GENERATE_DOCUMENT analysis.document_type
            "Documento auto-generable requerido" none]
        else acc)
      init = init ++ generate_actions rulesD analyses := by
  intro analyses
  induction analyses with
  | nil => intro init; simp [generate_actions]
  | cons a as ih =>
    intro init
    rw [List.foldl_cons]
    dsimp only
    by_cases hc : ((getRule rulesD a.document_type).auto_generable &&
        (!a.is_present || !a.is_valid)) = true
    · rw [if_pos hc, ih]
      unfold generate_actions
      rw [List.filter_cons, if_pos hc, List.map_cons, List.append_assoc]
      rfl
    · rw [if_neg hc, ih]
      unfold generate_actions
      rw [List.filter_cons, if_neg hc]

theorem determine_auto_actions_decomp (rulesD : List (String × DocRule))
    (rulesA : ActionRules) (cls : ClassificationType)
    (analyses : List DocumentAnalysis) (bi nbi : List String) :
    determine_auto_actions rulesD rulesA cls analyses bi nbi =
      move_actions rulesA cls ++ generate_actions rulesD analyses ++
        notify_actions bi := by
  unfold determine_auto_actions
  dsimp only
  rw [foldl_gen_append, move_part_eq]
  by_cases hb : bi.isEmpty = true
  · rw [if_neg (by simp [hb])]
    unfold notify_actions
    rw [if_neg (by simp [hb]), List.append_nil]
  · have hb' : bi.isEmpty = false := by simpa using hb
    rw [if_pos (by simp [hb'])]
    unfold notify_actions
    rw [if_pos (by simp [hb'])]

/-- C7 counterexample: an absent, blocking, auto-generable `cartao_cnpj`
rule with a mapped phase and a well-formed CNPJ. The final actions list is
`MOVE_CARD, GENERATE_DOCUMENT, NOTIFY_WHATSAPP, GENERATE_DOCUMENT`: the
enrichment `GENERATE_DOCUMENT` that `classify_documents` appends comes after
`NOTIFY_WHATSAPP`, so the claimed fixed order (nothing after the
notification) is violated. -/
theorem C7_counterexample :
    actionOrderOK ((classify_documents
      [("cartao_cnpj", ({ auto_generable := true } : DocRule))]
      { phase_mapping := [("Pendencia_Bloqueante", "phase123")] }
      (fun _ => none) 0 (.success "ok") [] "12345678000199").auto_actions) = false ∧
    ((classify_documents
      [("cartao_cnpj", ({ auto_generable := true } : DocRule))]
      { phase_mapping := [("Pendencia_Bloqueante", "phase123")] }
      (fun _ => none) 0 (.success "ok") [] "12345678000199").auto_actions).map
        AutoAction.type =
      ["MOVE_CARD", "GENERATE_DOCUMENT", "NOTIFY_WHATSAPP", "GENERATE_DOCUMENT"] :=
  ⟨rfl, rfl⟩

/-- C7 amended: the fixed order — `MOVE_CARD` exactly when a non-empty phase
mapping exists for the status, then one `GENERATE_DOCUMENT` per absent-or-
invalid auto-generable analysis, then `NOTIFY_WHATSAPP` exactly when
blocking issues exist — holds for the list `_determine_auto_actions`
returns; `classify_documents` then appends the Cartão-CNPJ enrichment
`GENERATE_DOCUMENT` actions after that list (hence after the
notification). -/
theorem C7_action_order (rulesD : List (String × DocRule)) (rulesA : ActionRules)
    (pd : String → Option Int) (now : Int) (e : EnrichResult)
    (docs : List (String × DocData)) (cnpj : String) (cls : ClassificationType)
    (analyses : List DocumentAnalysis) (bi nbi : List String) :
    (determine_auto_actions rulesD rulesA cls analyses bi nbi =
      move_actions rulesA cls ++ generate_actions rulesD analyses ++
        notify_actions bi) ∧
    ((classify_documents rulesD rulesA pd now e docs cnpj).auto_actions =
      determine_auto_actions rulesD rulesA
        ((classify_documents rulesD rulesA pd now e docs cnpj).classification_type)
        ((classify_documents rulesD rulesA pd now e docs cnpj).document_analyses)
        ((classify_documents rulesD rulesA pd now e docs cnpj).blocking_issues)
        ((classify_documents rulesD rulesA pd now e docs cnpj).non_blocking_issues) ++
      enrichLog ((classify_documents rulesD rulesA pd now e docs cnpj).document_analyses)
        cnpj e) :=
  ⟨determine_auto_actions_decomp rulesD rulesA cls analyses bi nbi, rfl⟩

/-! ### Helper lemmas — validate_documents -/

theorem validateStep_detalles (docs : List DocumentoAnexo) (regla : Regla)
    (resp : Except String String) (st : VState) :
    (validateStep docs regla resp st).detalles =
      dictInsert st.detalles (stripStarSpace regla.item) (ruleDetalle docs regla resp) := by
  cases resp with
  | error e => rfl
  | ok r =>
    cases hm : doc_match docs r with
    | some i => simp only [validateStep, ruleDetalle, hm]
    | none =>
      simp only [validateStep, ruleDetalle, hm]
      split
      · rfl
      · rfl

theorem validateStep_status_ok (docs : List DocumentoAnexo) (regla : Regla)
    (resp : Except String String) (st : VState) (h : okOrMatched docs resp) :
    (validateStep docs regla resp st).status_geral = st.status_geral := by
  cases resp with
  | error e => rfl
  | ok r =>
    cases hm : doc_match docs r with
    | some i => simp only [validateStep, hm]
    | none =>
      have := h r rfl
      rw [hm] at this
      simp at this

theorem validateLoop_status (docs : List DocumentoAnexo)
    (oracle : Nat → Except String String) :
    ∀ (cl : List Regla) (i0 : Nat) (st : VState),
    (∀ j, j < cl.length → okOrMatched docs (oracle (i0 + j))) →
    (validateLoop docs oracle cl i0 st).status_geral = st.status_geral := by
  intro cl
  induction cl with
  | nil => intro i0 st _; rfl
  | cons regla rest ih =>
    intro i0 st h
    rw [validateLoop]
    rw [ih (i0 + 1) _ (fun j hj => by
      have hh := h (j + 1) (by simpa using Nat.succ_lt_succ hj)
      rwa [(by omega : i0 + (j + 1) = i0 + 1 + j)] at hh)]
    exact validateStep_status_ok docs regla (oracle i0) st (by
      have hh := h 0 (by simp)
      rwa [Nat.add_zero] at hh)

theorem validateLoop_detalles (docs : List DocumentoAnexo)
    (oracle : Nat → Except String String) :
    ∀ (cl : List Regla) (i0 : Nat) (st : VState),
    (validateLoop docs oracle cl i0 st).detalles =
      (ruleRecords docs oracle i0 cl).foldl (fun m p => dictInsert m p.1 p.2)
        st.detalles := by
  intro cl
  induction cl with
  | nil => intro i0 st; rfl
  | cons regla rest ih =>
    intro i0 st
    rw [validateLoop, ruleRecords, List.foldl_cons, ih]
    congr 1
    exact validateStep_detalles docs regla (oracle i0) st

theorem ruleRecords_get (docs : List DocumentoAnexo)
    (oracle : Nat → Except String String) :
    ∀ (cl : List Regla) (i0 j : Nat),
    (ruleRecords docs oracle i0 cl).get? j =
      (cl.get? j).map (fun regla =>
        (stripStarSpace regla.item, ruleDetalle docs regla (oracle (i0 + j)))) := by
  intro cl
  induction cl with
  | nil => intro i0 j; simp [ruleRecords]
  | cons regla rest ih =>
    intro i0 j
    cases j with
    | zero => simp [ruleRecords]
    | succ j' =>
      rw [ruleRecords]
      show (ruleRecords docs oracle (i0 + 1) rest).get? j' = _
      rw [ih (i0 + 1) j', (by omega : i0 + 1 + j' = i0 + (j' + 1))]
      rfl

theorem doc_match_spec (r : String) :
    ∀ (docs : List DocumentoAnexo),
    ((doc_match docs r).map (fun i => (docs.getD i {}).name) =
      (docs.find? (fun d => containsCI d.name r)).map (fun d => d.name)) ∧
    ((doc_match docs r).isSome = docs.any (fun d => containsCI d.name r)) := by
  intro docs
  induction docs with
  | nil => exact ⟨rfl, rfl⟩
  | cons d ds ih =>
    by_cases hc : containsCI d.name r = true
    · constructor
      · rw [doc_match, if_pos hc]
        rw [List.find?_cons_of_pos (p := fun d => containsCI d.name r) ds hc]
        rfl
      · rw [doc_match, if_pos hc]
        rw [List.any_cons, hc]
        rfl
    · have hc' : containsCI d.name r = false := by simpa using hc
      constructor
      · rw [doc_match, if_neg hc,
          List.find?_cons_of_neg (p := fun d => containsCI d.name r) ds (by simp [hc']),
          Option.map_map]
        exact ih.1
      · rw [doc_match, if_neg hc]
        have hmap : ((doc_match ds r).map (fun i => i + 1)).isSome =
            (doc_match ds r).isSome := by
          cases doc_match ds r <;> rfl
        rw [hmap, ih.2, List.any_cons, hc']
        rfl

/-! ### C2 -/

/-- C2 counterexample: the rule label `RG` and the submission
`RG_frente_verso.pdf` are in normalized substring containment, yet the match
outcome depends entirely on the oracle response: an oracle answering
`Ninguno` yields `Faltante`, an oracle naming the file yields `Presente`.
There is no exact-match stage in `validate_documents` — the oracle is
consulted unconditionally. -/
theorem C2_counterexample :
    pyInStr (normalize_name "RG") (normalize_name "RG_frente_verso.pdf") = true ∧
    ((validate_documents (some [⟨"RG", "Bloqueante", ""⟩])
        [{ name := "RG_frente_verso.pdf" }] (fun _ => .ok "Ninguno")).detalles.map
      (fun p => (p.1, p.2.status))) = [("RG", "Faltante")] ∧
    ((validate_documents (some [⟨"RG", "Bloqueante", ""⟩])
        [{ name := "RG_frente_verso.pdf" }]
        (fun _ => .ok "RG_frente_verso.pdf")).detalles.map
      (fun p => (p.1, p.2.status))) = [("RG", "Presente")] :=
  ⟨rfl, rfl, rfl⟩

/-- C2 amended: `validate_documents` performs no deterministic exact-match
stage — it consults the oracle once per rule unconditionally, the
normalization helper being defined but never called. Presence is decided by
the oracle response alone: a rule is `Presente` exactly when some
submission's name occurs (case-sensitively or case-insensitively) inside the
response, and the matched document is the first such submission in
submission order. -/
theorem C2_first_match_on_response (docs : List DocumentoAnexo) (regla : Regla)
    (respuesta : String) :
    ((ruleDetalle docs regla (.ok respuesta)).status =
      if docs.any (fun d => containsCI d.name respuesta) then "Presente"
      else "Faltante") ∧
    ((ruleDetalle docs regla (.ok respuesta)).doc_name =
      (docs.find? (fun d => containsCI d.name respuesta)).map (fun d => d.name)) := by
  constructor
  · unfold ruleDetalle
    dsimp only
    cases hm : doc_match docs respuesta with
    | some i =>
      have h2 := (doc_match_spec respuesta docs).2
      rw [hm] at h2
      simp [← h2]
    | none =>
      have h2 := (doc_match_spec respuesta docs).2
      rw [hm] at h2
      simp [← h2]
  · unfold ruleDetalle
    dsimp only
    cases hm : doc_match docs respuesta with
    | some i =>
      have h1 := (doc_match_spec respuesta docs).1
      rw [hm] at h1
      simpa using h1
    | none =>
      have h1 := (doc_match_spec respuesta docs).1
      rw [hm] at h1
      simpa using h1

/-! ### C5 -/

/-- C5: an oracle failure for the rule at position `k` is caught per-rule:
that rule's record becomes `Faltante` carrying the error, the records of all
other rules are exactly what they are under any oracle that agrees off `k`
(isolation), and the run still produces its full per-rule detail dict (no
abort). -/
theorem C5_oracle_failure_isolated (cl : List Regla) (docs : List DocumentoAnexo)
    (o1 o2 : Nat → Except String String) (k : Nat) (e : String)
    (hagree : ∀ i, i ≠ k → o1 i = o2 i) (herr : o1 k = .error e) :
    (∀ i, i ≠ k →
      (ruleRecords docs o1 0 cl).get? i = (ruleRecords docs o2 0 cl).get? i) ∧
    (∀ regla, cl.get? k = some regla →
      (ruleRecords docs o1 0 cl).get? k =
        some (stripStarSpace regla.item,
          { status := "Faltante", regla := regla, error := some e })) ∧
    ((validate_documents (some cl) docs o1).detalles =
      (ruleRecords docs o1 0 cl).foldl (fun m p => dictInsert m p.1 p.2) []) := by
  refine ⟨?_, ?_, ?_⟩
  · intro i hi
    rw [ruleRecords_get, ruleRecords_get]
    cases cl.get? i with
    | none => rfl
    | some regla =>
      rw [Option.map_some']
      rw [Nat.zero_add, hagree i hi]
      rfl
  · intro regla hk
    rw [ruleRecords_get, hk]
    rw [Option.map_some']
    rw [Nat.zero_add, herr]
    rfl
  · cases cl with
    | nil => rfl
    | cons regla rest =>
      show (validateLoop docs o1 (regla :: rest) 0 {}).detalles = _
      rw [validateLoop_detalles]

/-- C5 witness: two rules, oracle errors on the first only; the second
rule's record is oracle-independent and the first is `Faltante` with the
error. -/
theorem C5_oracle_failure_isolated_witness :
    ((ruleRecords [] (fun i => if i = 0 then Except.error "timeout"
        else Except.ok "Ninguno") 0 [⟨"A", "", ""⟩, ⟨"B", "", ""⟩]).get? 1 =
      (ruleRecords [] (fun _ => Except.ok "Ninguno") 0
        [⟨"A", "", ""⟩, ⟨"B", "", ""⟩]).get? 1) ∧
    ((ruleRecords [] (fun i => if i = 0 then Except.error "timeout"
        else Except.ok "Ninguno") 0 [⟨"A", "", ""⟩, ⟨"B", "", ""⟩]).get? 0 =
      some ("A",
        { status := "Faltante", regla := ⟨"A", "", ""⟩, error := some "timeout" })) :=
  ⟨(C5_oracle_failure_isolated [⟨"A", "", ""⟩, ⟨"B", "", ""⟩] []
      (fun i => if i = 0 then Except.error "timeout" else Except.ok "Ninguno")
      (fun _ => Except.ok "Ninguno") 0 "timeout"
      (fun i hi => by simp [hi]) rfl).1 1 (by decide),
   (C5_oracle_failure_isolated [⟨"A", "", ""⟩, ⟨"B", "", ""⟩] []
      (fun i => if i = 0 then Except.error "timeout" else Except.ok "Ninguno")
      (fun _ => Except.ok "Ninguno") 0 "timeout"
      (fun i hi => by simp [hi]) rfl).2.1 ⟨"A", "", ""⟩ rfl⟩

/-! ### C10 -/

/-- C10: when the oracle call of a rule raises, the rule is recorded as
`Faltante` but `status_geral` is left untouched; hence a run in which every
rule either matches or errors out returns status `Aprovado` — regardless of
the rules' pendency classifications, including blocking ones. -/
theorem C10_errors_leave_status (cl : List Regla) (docs : List DocumentoAnexo)
    (oracle : Nat → Except String String) (hne : cl ≠ [])
    (h : ∀ j, j < cl.length → okOrMatched docs (oracle j)) :
    (validate_documents (some cl) docs oracle).status = "Aprovado" ∧
    (∀ j regla e, cl.get? j = some regla → oracle j = .error e →
      (ruleRecords docs oracle 0 cl).get? j =
        some (stripStarSpace regla.item,
          { status := "Faltante", regla := regla, error := some e })) := by
  constructor
  · cases cl with
    | nil => exact absurd rfl hne
    | cons regla rest =>
      show (validateLoop docs oracle (regla :: rest) 0 {}).status_geral = "Aprovado"
      rw [validateLoop_status docs oracle (regla :: rest) 0 {} (fun j hj => by
        rw [Nat.zero_add]
        exact h j hj)]
  · intro j regla e hj he
    rw [ruleRecords_get, hj]
    rw [Option.map_some']
    rw [Nat.zero_add, he]
    rfl

/-- C10 witness: a single blocking rule whose oracle call raises; the run
returns `Aprovado` and the rule's record is `Faltante` with the error. -/
theorem C10_errors_leave_status_witness :
    (validate_documents (some [⟨"*Contrato Social", "Pendência Bloqueante", ""⟩]) []
      (fun _ => .error "timeout")).status = "Aprovado" :=
  (C10_errors_leave_status [⟨"*Contrato Social", "Pendência Bloqueante", ""⟩] []
    (fun _ => .error "timeout") (List.cons_ne_nil _ _)
    (fun j hj respuesta hresp => by simp at hresp)).1

/-! ### C8 -/

/-- C8 counterexample: a repository state holding a good snapshot whose
cache has expired; the reload (the `PDFKnowledgeSource` constructor) raises.
`get_knowledge_source` returns `None` for that call instead of serving the
stored snapshot. -/
theorem C8_counterexample :
    should_reload
      { knowledge_source := some "snapshot", last_load_time := some 0,
        faq_path := some "faq.pdf", rules_cache := [] } 1801 (fun _ => some 0) = true ∧
    (get_knowledge_source
      { knowledge_source := some "snapshot", last_load_time := some 0,
        faq_path := some "faq.pdf", rules_cache := [] }
      (some "faq.pdf") 1801 (fun _ => some 0) (.error "io error")).1 = none ∧
    ({ knowledge_source := some "snapshot", last_load_time := some 0,
       faq_path := some "faq.pdf", rules_cache := [] } : FAQState).knowledge_source =
      some "snapshot" :=
  ⟨rfl, rfl, rfl⟩

/-- C8 amended: after a successful initial load, a failing reload keeps the
last good snapshot in the repository state but the failing
`get_knowledge_source` call itself returns `None` — the caller is not served
the snapshot and must degrade. The checklist loader `load_checklist`, by
contrast, never reloads once a checklist is cached, so its callers always
receive the last good checklist. -/
theorem C8_reload_failure_returns_none (st : FAQState) (findFaq : Option String)
    (now : Int) (mtimeOf : String → Option Int) (e : String) (ks p : String)
    (c : List Regla) (cpath : Option String) (pe : String → Bool)
    (rj : Except String (List Regla))
    (h0 : st.faq_path = some p) (h1 : st.knowledge_source = some ks)
    (h2 : should_reload st now mtimeOf = true) :
    (get_knowledge_source st findFaq now mtimeOf (.error e)).1 = none ∧
    (get_knowledge_source st findFaq now mtimeOf (.error e)).2.knowledge_source
      = some ks ∧
    (load_checklist (some c) cpath pe rj).1 = some c := by
  unfold get_knowledge_source
  rw [h0]
  dsimp only
  rw [if_pos h2]
  exact ⟨rfl, h1, rfl⟩

/-- C8 witness: the amended theorem applied to the concrete expired-cache
state with a failing loader. -/
theorem C8_reload_failure_returns_none_witness :
    (get_knowledge_source
      { knowledge_source := some "snapshot", last_load_time := some 0,
        faq_path := some "faq.pdf", rules_cache := [] }
      (some "faq.pdf") 1801 (fun _ => some 0) (.error "io error")).1 = none ∧
    (get_knowledge_source
      { knowledge_source := some "snapshot", last_load_time := some 0,
        faq_path := some "faq.pdf", rules_cache := [] }
      (some "faq.pdf") 1801 (fun _ => some 0)
      (.error "io error")).2.knowledge_source = some "snapshot" ∧
    (load_checklist (some [⟨"A", "", ""⟩]) none (fun _ => false)
      (.error "unreadable")).1 = some [⟨"A", "", ""⟩] :=
  C8_reload_failure_returns_none
    { knowledge_source := some "snapshot", last_load_time := some 0,
      faq_path := some "faq.pdf", rules_cache := [] }
    (some "faq.pdf") 1801 (fun _ => some 0) "io error" "snapshot" "faq.pdf"
    [⟨"A", "", ""⟩] none (fun _ => false) (.error "unreadable") rfl rfl rfl

/-! ### C9 -/

/-- C9: the document-name normalization is idempotent:
`normalize_name (normalize_name x) = normalize_name x` for every string. -/
theorem C9_normalize_name_idempotent (s : String) :
    normalize_name (normalize_name s) = normalize_name s := by
  unfold normalize_name
  exact congrArg String.mk (normalizeNameList_idem s.toList)

/-- C9 witness: idempotence at a concrete accented label. -/
theorem C9_normalize_name_idempotent_witness :
    normalize_name (normalize_name "Cartão CNPJ") = normalize_name "Cartão CNPJ" :=
  C9_normalize_name_idempotent "Cartão CNPJ"

/-- C2 witness: the characterization applied to a concrete rule, submission
and oracle response that names the file. -/
theorem C2_first_match_on_response_witness :
    (ruleDetalle [{ name := "RG_frente_verso.pdf" }] ⟨"RG", "Bloqueante", ""⟩
      (.ok "RG_frente_verso.pdf")).status = "Presente" := by
  rw [(C2_first_match_on_response [{ name := "RG_frente_verso.pdf" }]
    ⟨"RG", "Bloqueante", ""⟩ "RG_frente_verso.pdf").1]
  rfl

/-- C4 witness: the bounds at a concrete one-rule, no-document input. -/
theorem C4_confidence_mean_bounded_witness :
    0 ≤ (classify_documents [("doc1", ({} : DocRule))] {} (fun _ => none) 0
      (.success "") [] "").confidence_score ∧
    (classify_documents [("doc1", ({} : DocRule))] {} (fun _ => none) 0
      (.success "") [] "").confidence_score ≤ 1 :=
  ⟨(C4_confidence_mean_bounded [("doc1", ({} : DocRule))] {} (fun _ => none) 0
      (.success "") [] "").2.2.1,
   (C4_confidence_mean_bounded [("doc1", ({} : DocRule))] {} (fun _ => none) 0
      (.success "") [] "").2.2.2⟩

/-- C6 witness: the checklist-unavailable input still yields an `APROVADO`
result with confidence `0`. -/
theorem C6_no_exception_to_caller_witness :
    (classify_documents [] {} (fun _ => none) 0 (.success "") [] "").classification_type
      = .APROVADO ∧
    (classify_documents [] {} (fun _ => none) 0 (.success "") [] "").confidence_score
      = 0 :=
  ⟨(C6_no_exception_to_caller [] {} (fun _ => none) 0 (.success "") (.failure "boom")
      [] "").2.2.2.2.2.2.2.1,
   (C6_no_exception_to_caller [] {} (fun _ => none) 0 (.success "") (.failure "boom")
      [] "").2.2.2.2.2.2.2.2.2⟩

/-- C7 witness: the decomposition at concrete empty inputs. -/
theorem C7_action_order_witness :
    determine_auto_actions [] {} .APROVADO [] [] [] =
      move_actions {} .APROVADO ++ generate_actions [] [] ++ notify_actions [] :=
  (C7_action_order [] {} (fun _ => none) 0 (.success "") [] "" .APROVADO [] [] []).1

end PipefyV2
